import Mathlib

/-!
Shallow embedding of the docker-inspect backend (`src/server.js`) and the
presentation-layer tree filter (`src/frontend/src/components/DockerInspector.jsx`),
with theorems settling the specification claims about them.

Conventions: JavaScript numbers that the program only ever uses as byte
counts are `ℕ`; the intermediate values of the size formatter are `ℚ`
(division by powers of 1024 is exact on IEEE doubles below `2^53`, so the
rational value coincides with the double value on all inputs of interest);
promise rejections and thrown exceptions are `Except String`; the Redis
hashes and the result cache are association lists.
-/

namespace DockerInspect

/-! ### Size formatter (`formatSize`, server.js lines 21–32) -/

/-- The unit sequence of the size formatter (`units` in `formatSize`). -/
def units : List String := ["B", "KB", "MB", "GB"]

/-- Model of JavaScript `Number.prototype.toFixed(1)` on the nonnegative
exact values arising here: round to the nearest tenth, ties upward, and
print as `<integer part>.<tenths digit>`. -/
def toFixed1 (q : ℚ) : String :=
  let t : ℕ := (⌊q * 10 + 1 / 2⌋).toNat
  Nat.repr (t / 10) ++ "." ++ Nat.repr (t % 10)

/-- The `while` loop of `formatSize`: divide by 1024 while the value is at
least 1024 and a larger unit remains. The guard `unitIndex < units.length - 1`
is carried as the fuel argument, which counts the remaining larger units. -/
def sizeLoopGo : ℚ → ℕ → ℕ → ℚ × ℕ
  | q, i, 0 => (q, i)
  | q, i, k + 1 => if 1024 ≤ q then sizeLoopGo (q / 1024) (i + 1) k else (q, i)

/-- The loop of `formatSize` started at value `q` and unit index `i`. -/
def sizeLoop (q : ℚ) (i : ℕ) : ℚ × ℕ :=
  sizeLoopGo q i (units.length - 1 - i)

/-- Translation of `formatSize` (server.js lines 21–32) on a byte count. -/
def formatSize (size : ℕ) : String :=
  let r := sizeLoop (size : ℚ) 0
  toFixed1 r.1 ++ units.getD r.2 ""

/-- The size-formatter algorithm as the specification words it, in closed
form: the final unit index is the number of times 1024 divides in before the
value drops below 1024 (capped by the unit list), and the emitted quotient
is the input divided by that power of 1024. -/
def specUnitIndex (n : ℕ) : ℕ :=
  if n < 1024 then 0 else if n < 1024 ^ 2 then 1 else if n < 1024 ^ 3 then 2 else 3

/-- Closed-form reading of the spec's size-formatter sentence. -/
def specFormatSize (n : ℕ) : String :=
  toFixed1 ((n : ℚ) / 1024 ^ specUnitIndex n) ++ units.getD (specUnitIndex n) ""

/-! ### `path.dirname` (Node.js `path.posix.dirname`, used at line 51) -/

/-- The backward scan of Node's POSIX `path.dirname`: from index `i` down to
index 1, skip the trailing run of separators, then report the index of the
separator that precedes the final name component (`none` if there is no such
separator at index ≥ 1). -/
def dirnameScan (cs : List Char) : ℕ → Bool → Option ℕ
  | 0, _ => none
  | i + 1, matchedSlash =>
    if cs.getD (i + 1) ' ' = '/' then
      if matchedSlash then dirnameScan cs i true else some (i + 1)
    else dirnameScan cs i false

/-- Translation of Node.js `path.posix.dirname`, which `buildFileTree` calls
as `path.dirname(file.path)`. -/
def dirname (s : String) : String :=
  let cs := s.toList
  if cs.length = 0 then "."
  else
    let hasRoot := cs.getD 0 ' ' = '/'
    match dirnameScan cs (cs.length - 1) true with
    | none => if hasRoot then "/" else "."
    | some e => if hasRoot ∧ e = 1 then "//" else ⟨cs.take e⟩

example : dirname "/a/b/c.txt" = "/a/b" := by decide
example : dirname "/a" = "/" := by decide
example : dirname "a" = "." := by decide
example : dirname "/" = "/" := by decide

/-! ### Tree builder (`buildFileTree`, server.js lines 34–71) -/

/-- One record produced by the archive extractor (`extractTarStream`):
base name, full path, raw byte size, kind (`"file"` or `"directory"`),
modified timestamp, and buffered content. -/
structure FileRec where
  name : String
  path : String
  size : ℕ
  type : String
  modified : String
  content : String := ""
deriving Repr, DecidableEq

/-- Number of `/` characters in a path — the key of `buildFileTree`'s sort
comparator `(a.path.match(/\//g) || []).length`. -/
def slashCount (p : String) : ℕ :=
  (p.toList.filter (fun c => c == '/')).length

/-- The comparator's order: record `a` may stay before `b` exactly when the
comparator `slashCount a - slashCount b` is ≤ 0. -/
def depthRel (a b : FileRec) : Prop :=
  slashCount a.path ≤ slashCount b.path

instance : DecidableRel depthRel := fun _ _ => Nat.decLe _ _

instance : IsTotal FileRec depthRel := ⟨fun _ _ => Nat.le_total _ _⟩

instance : IsTrans FileRec depthRel := ⟨fun _ _ _ => Nat.le_trans⟩

/-- Model of the in-place `files.sort((a, b) => slashes(a) - slashes(b))`:
JavaScript `Array.prototype.sort` is stable, and a stable sort under a total
preorder is determined by its comparator, so insertion sort produces exactly
the array the program's sort leaves behind. -/
def sortByDepth (files : List FileRec) : List FileRec :=
  files.insertionSort depthRel

/-- A node as inserted by `buildFileTree` into `pathMap` and its parent's
`children` array: `parent` is the insertion index of the parent node
(`none` for the virtual root), and `isDir` records whether the node was
given a `children` array (`file.type === 'directory'`). -/
structure BNode where
  name : String
  path : String
  size : String
  type : String
  modified : String
  isDir : Bool
  parent : Option ℕ
deriving Repr, DecidableEq

/-- The mutable state of `buildFileTree`'s loop: the nodes inserted so far in
insertion order, and `pathMap` as an association list in which the most
recent binding of a path shadows older ones (JS property assignment). The
virtual root is the `pathMap` entry `("/", none)`. -/
structure TBState where
  nodes : List BNode
  pathMap : List (String × Option ℕ)
deriving Repr, DecidableEq

/-- `root` plus `pathMap = { '/': root }` from lines 35–43. -/
def initState : TBState := { nodes := [], pathMap := [("/", none)] }

/-- `pathMap[p]`: latest binding wins. -/
def lookupPath (m : List (String × Option ℕ)) (p : String) : Option (Option ℕ) :=
  (m.find? (fun e => e.1 == p)).map (·.2)

/-- Whether the node a `pathMap` entry denotes has a `children` array: the
virtual root does, an inserted node does exactly when `isDir`. -/
def entryHasChildren (st : TBState) : Option ℕ → Bool
  | none => true
  | some i =>
    match st.nodes.get? i with
    | some b => b.isDir
    | none => false

/-- One iteration of the `for` loop of `buildFileTree` (lines 50–68): a
record whose parent path has no `pathMap` entry is skipped (`continue`);
otherwise the node is built (its size put through `formatSize`), registered
under its own path, and appended to its parent's `children`. Pushing onto a
parent that has no `children` array would be a JavaScript `TypeError`,
modelled as `.error`. -/
def processFile (st : TBState) (f : FileRec) : Except String TBState :=
  match lookupPath st.pathMap (dirname f.path) with
  | none => .ok st
  | some pidx =>
    if entryHasChildren st pidx then
      .ok { nodes := st.nodes ++
              [⟨f.name, f.path, formatSize f.size, f.type, f.modified,
                f.type == "directory", pidx⟩],
            pathMap := (f.path, some st.nodes.length) :: st.pathMap }
    else .error "TypeError: cannot push onto undefined children"

/-- A node of the output tree: `children` is `some` exactly when the JS
object carries a `children` array (directory nodes). -/
inductive FileNode : Type where
  | node (name : String) (path : String) (size : String) (type : String)
      (modified : String) (children : Option (List FileNode)) : FileNode
deriving Repr

/-- Read the finished tree off the insertion log: the children of the node
inserted at index `i` (of the virtual root for `none`) are the nodes
recorded with that parent, in insertion order. `fuel` bounds the recursion
depth; any value above the number of nodes is enough, because a child's
insertion index strictly exceeds its parent's. -/
def toTreeGo (all : List (ℕ × BNode)) : ℕ → Option ℕ → List FileNode
  | 0, _ => []
  | fuel + 1, parent =>
    (all.filter (fun e => e.2.parent == parent)).map fun e =>
      FileNode.node e.2.name e.2.path e.2.size e.2.type e.2.modified
        (if e.2.isDir then some (toTreeGo all fuel (some e.1)) else none)

/-- Run the loop of `buildFileTree` over an already sorted record list and
return `root.children`. -/
def buildSortedPass (sorted : List FileRec) : Except String (List FileNode) :=
  (sorted.foldlM processFile initState).map fun st =>
    toTreeGo st.nodes.enum (st.nodes.length + 1) none

/-- Translation of `buildFileTree` (lines 34–71) as a state transformer:
first component the returned tree (or the thrown `TypeError`), second the
post-call state of the caller's `files` array — `Array.prototype.sort`
sorts it in place before the loop runs. -/
def buildFileTreeRun (files : List FileRec) :
    Except String (List FileNode) × List FileRec :=
  let sorted := sortByDepth files
  (buildSortedPass sorted, sorted)

/-- The return value of `buildFileTree`. -/
def buildFileTree (files : List FileRec) : Except String (List FileNode) :=
  (buildFileTreeRun files).1

/-- The record for `/a/b/c.txt` used in the claims' concrete scenarios. -/
def recC : FileRec := { name := "c.txt", path := "/a/b/c.txt", size := 5,
                        type := "file", modified := "m3" }

/-- The record for the directory `/a`. -/
def recA : FileRec := { name := "a", path := "/a", size := 0,
                        type := "directory", modified := "m1" }

/-- The record for the directory `/a/b`. -/
def recB : FileRec := { name := "b", path := "/a/b", size := 0,
                        type := "directory", modified := "m2" }

example : buildFileTree [recC] = .ok [] := by rfl

example : sortByDepth [recC, recB, recA] = [recA, recB, recC] := by rfl

example : buildFileTree [recC, recB, recA] =
    .ok [.node "a" "/a" (formatSize 0) "directory" "m1"
          (some [.node "b" "/a/b" (formatSize 0) "directory" "m2"
            (some [.node "c.txt" "/a/b/c.txt" (formatSize 5) "file" "m3" none])])] := by
  rfl

/-! ### Worker (`Worker.processJob` / `getFileContents`, server.js lines 103–177) -/

/-- Observable events of one worker or handler run, in program order. -/
inductive Ev : Type where
  | containerCreate : Ev
  | containerRemove : Ev
  | cacheWrite : Ev
  | statusWrite (s : String) : Ev
deriving Repr, DecidableEq

/-- Resolutions of the awaited external calls a single `processJob` run
makes, abstracting the Docker engine and the tar decode: each field is the
outcome of the corresponding promise (`docker.pull`, `image.inspect`,
`docker.createContainer`, `container.getArchive` + `extractTarStream`,
`container.remove`). -/
structure WorkerEnv where
  pullRes : Except String Unit
  inspectRes : Except String Unit
  createRes : Except String Unit
  archiveRes : Except String (List FileRec)
  removeRes : Except String Unit

/-- `Worker.listFiles` (lines 166–170): archive export and extraction
(summarised by `archiveRes`) followed by `buildFileTree`. -/
def listFiles (env : WorkerEnv) : Except String (List FileNode) := do
  let files ← env.archiveRes
  buildFileTree files

/-- Translation of `Worker.processJob` (lines 104–164) as the event trace it
emits. The single `try`/`catch` turns the first raised error into a
`status: failed` write; `container.remove()` (line 126) sits on the
straight-line path after `listFiles`, so it only runs when `listFiles`
resolves; on full success the result is cached (`redis.setex`) and the job
hash is written with `status: completed`. -/
def processJob (env : WorkerEnv) : List Ev :=
  match env.pullRes with
  | .error _ => [.statusWrite "failed"]
  | .ok _ =>
  match env.inspectRes with
  | .error _ => [.statusWrite "failed"]
  | .ok _ =>
  match env.createRes with
  | .error _ => [.statusWrite "failed"]
  | .ok _ =>
  match listFiles env with
  | .error _ => [.containerCreate, .statusWrite "failed"]
  | .ok _ =>
  match env.removeRes with
  | .error _ => [.containerCreate, .containerRemove, .statusWrite "failed"]
  | .ok _ => [.containerCreate, .containerRemove, .cacheWrite, .statusWrite "completed"]

/-- The job-status values observable for one job, in write order: the POST
handler's `status: 'pending'` (line 189) followed by the status writes of
the dispatched `processJob`. -/
def observedStatuses (env : WorkerEnv) : List String :=
  "pending" :: (processJob env).filterMap fun e =>
    match e with
    | .statusWrite s => some s
    | _ => none

/-! ### HTTP handlers (server.js lines 180–267) -/

/-- A Redis job hash (`job:<id>`), fields as written by the handlers. -/
structure JobHash where
  imageUrl : Option String := none
  jobId : Option String := none
  status : Option String := none
  result : Option String := none
  error : Option String := none
deriving Repr, DecidableEq

/-- Response of `POST /api/inspect`. -/
inductive InspectResp : Type where
  | ok (jobId : String) : InspectResp
  | badRequest (msg : String) : InspectResp
deriving Repr, DecidableEq

/-- Translation of the `POST /api/inspect` handler (lines 180–200): the
body's `image_name` (possibly absent or empty) is destructured and stored
as-is — there is no validation; the job hash is written with
`status: 'pending'` and the job id is returned. Only a rejection of the
`hmset` write reaches the `catch` and produces 400, in which case no job
hash exists. Second component: the job hash created, if any. -/
def inspectHandler (imageName : Option String) (jobId : String)
    (hmsetRes : Except String Unit) : InspectResp × Option JobHash :=
  match hmsetRes with
  | .ok _ =>
    (.ok jobId,
     some { imageUrl := imageName, jobId := some jobId, status := some "pending" })
  | .error e => (.badRequest e, none)

/-- The job-hash store (Redis db 1) keyed by job id. `hgetall` on an absent
key resolves to an empty hash: ioredis builds an object from the reply and
returns `{}` when the key does not exist — never `null`. -/
def hgetall (st : List (String × JobHash)) (k : String) : JobHash :=
  match st.find? (fun e => e.1 == k) with
  | some e => e.2
  | none => {}

/-- JavaScript truthiness of an `hgetall` result: an object — the empty
object included — is always truthy, so the guard `!jobData` never holds. -/
def jsObjFalsy (_ : JobHash) : Bool := false

/-- JavaScript `x ? y : null` / `x || null` on a string-or-undefined value:
`undefined` and the empty string are falsy. -/
def jsStrOrNull : Option String → Option String
  | none => none
  | some s => if s == "" then none else some s

/-- Response of `GET /api/status/:jobId`. -/
inductive StatusResp : Type where
  | ok (status : Option String) (result : Option String) (error : Option String) :
      StatusResp
  | notFound : StatusResp
deriving Repr, DecidableEq

/-- Translation of `GET /api/status/:jobId` (lines 202–220). The 404 branch
tests `!jobData`, which is false for every object `hgetall` can resolve to;
the response carries the hash's fields (`result` through `JSON.parse`, which
round-trips the stored `JSON.stringify` output, and `error || null`). -/
def statusHandler (st : List (String × JobHash)) (jobId : String) : StatusResp :=
  let jobData := hgetall st jobId
  if jsObjFalsy jobData then .notFound
  else .ok jobData.status (jsStrOrNull jobData.result) (jsStrOrNull jobData.error)

/-- Response of `GET /api/results/:jobId`. -/
inductive ResultResp : Type where
  | ok (payload : String) : ResultResp
  | notFound : ResultResp
  | serverError (msg : String) : ResultResp
deriving Repr, DecidableEq

/-- The result cache (Redis db 0): `redis.get` resolves to the stored string
or `null`. -/
def cacheGet (c : List (String × String)) (k : String) : Option String :=
  (c.find? (fun e => e.1 == k)).map (·.2)

/-- JavaScript truthiness of `redis.get`'s resolution: `null` and `''` are
falsy. -/
def jsStrTruthy : Option String → Bool
  | none => false
  | some s => !(s == "")

/-- Translation of `GET /api/results/:jobId` (lines 222–242): the cache is
consulted first; on a miss the job hash is read and the request 404s unless
`status === 'completed'`; a completed hash missing its `result` field would
make `JSON.parse(undefined)` throw into the 500 `catch` (unreachable from
this program, which writes `status` and `result` together). -/
def resultsHandler (c : List (String × String)) (st : List (String × JobHash))
    (jobId : String) : ResultResp :=
  let cached := cacheGet c jobId
  if jsStrTruthy cached then .ok (cached.getD "")
  else
    let jobData := hgetall st jobId
    if jsObjFalsy jobData || !(jobData.status == some "completed") then .notFound
    else
      match jobData.result with
      | some r => .ok r
      | none => .serverError "JSON.parse: unexpected token u"

/-- Outcomes of the external calls made by `GET /api/file/:imageName`. -/
structure FetchEnv where
  createRes : Except String Unit
  archiveRes : Except String (List FileRec)
  removeRes : Except String Unit

/-- Response of `GET /api/file/:imageName`. -/
inductive FileResp : Type where
  | ok (f : Option FileRec) : FileResp
  | notFound (msg : String) : FileResp
deriving Repr, DecidableEq

/-- `Worker.getFileContents` (lines 172–176): archive export and extraction,
then `files[0]` (`none` models `undefined` on an empty extraction). -/
def getFileContents (env : FetchEnv) : Except String (Option FileRec) := do
  let files ← env.archiveRes
  pure files.head?

/-- Translation of the `GET /api/file/:imageName` handler (lines 244–267):
container creation, `try { … } finally { container.remove() }`, and an
outer `catch` mapping any error — including one thrown by the `finally`
itself — to 404. Returns the response and the container-event trace. -/
def fileHandler (env : FetchEnv) : FileResp × List Ev :=
  match env.createRes with
  | .error e => (.notFound e, [])
  | .ok _ =>
    match getFileContents env, env.removeRes with
    | .ok f, .ok _ => (.ok f, [.containerCreate, .containerRemove])
    | .ok _, .error e => (.notFound e, [.containerCreate, .containerRemove])
    | .error e, .ok _ => (.notFound e, [.containerCreate, .containerRemove])
    | .error _, .error e2 => (.notFound e2, [.containerCreate, .containerRemove])

/-! ### Presentation-layer search filter
(`filteredFiles` / `filterNodes`, DockerInspector.jsx lines 174–190) -/

/-- `String.prototype.toLowerCase`, char-wise (ASCII inputs here). -/
def strToLower (s : String) : String := ⟨s.toList.map Char.toLower⟩

/-- `String.prototype.includes` on char lists: substring containment, with
the empty needle contained everywhere. -/
def charsInclude (needle : List Char) : List Char → Bool
  | [] => needle.isPrefixOf []
  | c :: t => needle.isPrefixOf (c :: t) || charsInclude needle t

/-- `hay.includes(needle)`. -/
def strIncludes (hay needle : String) : Bool :=
  charsInclude needle.toList hay.toList

/-- The predicate of `filterNodes`' `filter` callback, evaluated on the
node's post-mutation state: `matches || node.children.length > 0` when the
node has a `children` array, else `matches` alone; `matches` is
`node.name.toLowerCase().includes(searchLower)`. -/
def keepNode (t : String) : FileNode → Bool
  | .node name _ _ _ _ none => strIncludes (strToLower name) t
  | .node name _ _ _ _ (some cs) =>
    strIncludes (strToLower name) t || decide (0 < cs.length)

mutual
/-- Post-mutation state of one node object: the callback reassigns
`node.children = filterNodes(node.children)` for every node carrying a
`children` array (DockerInspector.jsx line 182), mutating the node in
place. -/
def mutateNode (t : String) : FileNode → FileNode
  | .node n p s ty m c => .node n p s ty m (mutateChildren t c)

/-- Post-mutation state of a `children` field. -/
def mutateChildren (t : String) :
    Option (List FileNode) → Option (List FileNode)
  | none => none
  | some cs => some ((mutateList t cs).filter (keepNode t))

/-- Post-mutation states of the node objects of a list, element-wise. -/
def mutateList (t : String) : List FileNode → List FileNode
  | [] => []
  | n :: ns => mutateNode t n :: mutateList t ns
end

/-- `filterNodes`: the callback mutates each node and the kept (mutated)
nodes are returned. -/
def filterNodes (t : String) (ns : List FileNode) : List FileNode :=
  (mutateList t ns).filter (keepNode t)

/-- The `filteredFiles` memo (lines 174–190) as a state transformer on the
tree held in `inspectionData.files`: first component the returned filtered
list, second the post-call state of the original nodes. The spread
`[...inspectionData.files]` copies only the top-level array; the node
objects are shared with the original tree and mutated by the callback. An
empty search term short-circuits before any mutation. -/
def filteredFilesRun (files : List FileNode) (searchTerm : String) :
    List FileNode × List FileNode :=
  if searchTerm == "" then (files, files)
  else
    let t := strToLower searchTerm
    (filterNodes t files, mutateList t files)

/-! ## Theorems settling the claims -/

/-- Claim C3, counterexample: a submission whose `image_name` is the empty
string is not rejected — the handler returns the job id and a `pending` job
hash is created. -/
theorem inspect_empty_image_cex :
    (inspectHandler (some "") "job-1" (.ok ())).1 = .ok "job-1" ∧
    (inspectHandler (some "") "job-1" (.ok ())).2 ≠ none := by
  decide

/-- Claim C3, amended: the inspect endpoint performs no validation of the
image reference. For every body — reference present, empty, or missing — a
successful job-store write creates a `pending` job recording the reference
verbatim and returns the job id; 400 arises only when the write itself
fails, and then no job is recorded. -/
theorem inspect_handler_amended (imageName : Option String) (jobId : String) :
    inspectHandler imageName jobId (.ok ()) =
      (.ok jobId, some { imageUrl := imageName, jobId := some jobId,
                         status := some "pending" }) ∧
    ∀ e, inspectHandler imageName jobId (.error e) = (.badRequest e, none) :=
  ⟨rfl, fun _ => rfl⟩

/-- Claim C4, code bug: for a job id that was never created, `hgetall`
resolves to the (truthy) empty object, so the guard `!jobData` in
`GET /api/status/:jobId` never fires: the handler answers 200 with empty
fields instead of the intended 404 (`'Job not found'`). -/
theorem status_unknown_job_bug :
    statusHandler [] "missing-job" = .ok none none none ∧
    statusHandler [] "missing-job" ≠ .notFound := by
  decide

/-- Claim C6, confirmed: a record whose parent path has no node in the tree
under construction is dropped silently — the loop state is returned
unchanged, no error is raised and no ancestor is synthesized — and in
particular the tree built from the single record `/a/b/c.txt` is empty. -/
theorem tree_builder_drop_rule :
    (∀ (st : TBState) (f : FileRec),
        lookupPath st.pathMap (dirname f.path) = none →
        processFile st f = .ok st) ∧
    buildFileTree [recC] = .ok [] := by
  constructor
  · intro st f h
    unfold processFile
    rw [h]
  · rfl

/-- Witness for `tree_builder_drop_rule`: the drop rule applied to the
initial state and the `/a/b/c.txt` record. -/
theorem tree_builder_drop_rule_witness :
    processFile initState recC = .ok initState :=
  tree_builder_drop_rule.1 initState recC (by decide)

/-- Claim C7, confirmed: `buildFileTree` runs its loop over the input
sorted by ascending path depth (so a parent's record is processed before
its descendants'), and on the records `/a`, `/a/b`, `/a/b/c.txt` — here
given deepest-first — it returns exactly one top-level node `a` with one
child `b` with one leaf `c.txt`. -/
theorem tree_builder_sorted_pass :
    (∀ files : List FileRec,
        buildFileTree files = buildSortedPass (sortByDepth files) ∧
        (sortByDepth files).Sorted depthRel) ∧
    buildFileTree [recC, recB, recA] =
      .ok [.node "a" "/a" (formatSize 0) "directory" "m1"
            (some [.node "b" "/a/b" (formatSize 0) "directory" "m2"
              (some [.node "c.txt" "/a/b/c.txt" (formatSize 5) "file" "m3"
                none])])] := by
  refine ⟨fun files => ⟨rfl, ?_⟩, rfl⟩
  exact List.sorted_insertionSort depthRel files

/-- Claim C10, confirmed: the tree builder sorts the caller's record list in
place — after the call the caller's array is a permutation of its input in
ascending path-depth order — and on a concrete deepest-first input the array
really is reordered. -/
theorem sort_in_place_effect :
    (∀ files : List FileRec,
        (buildFileTreeRun files).2 = sortByDepth files ∧
        (buildFileTreeRun files).2.Perm files ∧
        ((buildFileTreeRun files).2).Sorted depthRel) ∧
    (buildFileTreeRun [recC, recA]).2 ≠ [recC, recA] := by
  refine ⟨fun files => ⟨rfl, ?_, ?_⟩, by decide⟩
  · exact List.perm_insertionSort depthRel files
  · exact List.sorted_insertionSort depthRel files

/-- The original tree of the mutation scenario of claim C9: a directory `a`
holding the single file `b`. -/
def exDir : FileNode :=
  .node "a" "/a" "0.0B" "directory" "m"
    (some [.node "b" "/a/b" "5.0B" "file" "m" none])

/-- Claim C9, code bug: filtering the tree `[a[b]]` with the term `"z"`
(which matches nothing) reassigns the original directory node's `children`
to the filtered empty list — after the call the original tree has lost the
node `b`, so the transform does not leave the original tree unchanged. -/
theorem filter_mutates_original_bug :
    (filteredFilesRun [exDir] "z").2 =
      [.node "a" "/a" "0.0B" "directory" "m" (some [])] ∧
    (filteredFilesRun [exDir] "z").2 ≠ [exDir] := by
  have h1 : (filteredFilesRun [exDir] "z").2 =
      [.node "a" "/a" "0.0B" "directory" "m" (some [])] := rfl
  refine ⟨h1, ?_⟩
  rw [h1]
  simp [exDir]

/-- A fully successful pipeline environment: every external call resolves
and the exported archive is empty. -/
def envOk : WorkerEnv :=
  { pullRes := .ok (), inspectRes := .ok (), createRes := .ok (),
    archiveRes := .ok [], removeRes := .ok () }

/-- An environment in which the archive export of the tree listing rejects
after the container was created. -/
def envLeak : WorkerEnv :=
  { pullRes := .ok (), inspectRes := .ok (), createRes := .ok (),
    archiveRes := .error "getArchive failed", removeRes := .ok () }

/-- Claim C1, counterexample: a dispatched job that runs to success has the
observed status sequence `pending, completed` — the status never passes
through `processing`. -/
theorem no_processing_status_cex :
    observedStatuses envOk = ["pending", "completed"] ∧
    "processing" ∉ observedStatuses envOk := by
  constructor
  · rfl
  · decide

/-- Claim C1, amended: `processJob` never writes a `processing` status; for
every dispatched job the observed status sequence is `pending` followed
directly by exactly one terminal status — `completed` on success, `failed`
on any pipeline error. The sequence is still monotone along
`pending → terminal`. -/
theorem status_sequence_amended (env : WorkerEnv) :
    (observedStatuses env = ["pending", "completed"] ∨
     observedStatuses env = ["pending", "failed"]) ∧
    "processing" ∉ observedStatuses env := by
  have key : observedStatuses env = ["pending", "completed"] ∨
      observedStatuses env = ["pending", "failed"] := by
    unfold observedStatuses processJob
    cases hp : env.pullRes
    · right; rfl
    · cases hi : env.inspectRes
      · right; rfl
      · cases hc : env.createRes
        · right; rfl
        · cases hl : listFiles env
          · right; rfl
          · cases hr : env.removeRes
            · right; rfl
            · left; rfl
  refine ⟨key, ?_⟩
  rcases key with h | h <;> rw [h] <;> decide

/-- Claim C2, counterexample: in `processJob`, when the tree-listing archive
export fails after the container was created, `container.remove()` is never
invoked — the exception jumps to the `catch` block, which only writes the
`failed` status. -/
theorem container_leak_cex :
    Ev.containerCreate ∈ processJob envLeak ∧
    Ev.containerRemove ∉ processJob envLeak := by
  decide

/-- Claim C2, amended: the single-file fetch handler removes its container
on every exit path (its `try`/`finally`), but the job's tree listing in
`processJob` invokes `container.remove()` only when `listFiles` resolves:
removal happens there exactly when the container was created and the
listing succeeded, so a failing listing leaks the container. -/
theorem container_cleanup_amended :
    (∀ env : FetchEnv, Ev.containerCreate ∈ (fileHandler env).2 →
        Ev.containerRemove ∈ (fileHandler env).2) ∧
    (∀ env : WorkerEnv, Ev.containerRemove ∈ processJob env ↔
        Ev.containerCreate ∈ processJob env ∧ ∃ t, listFiles env = .ok t) := by
  constructor
  · intro env h
    unfold fileHandler at h ⊢
    cases hc : env.createRes
    · rw [hc] at h; simp at h
    · cases hg : getFileContents env <;> cases hr : env.removeRes <;> simp
  · intro env
    unfold processJob
    cases hp : env.pullRes
    · simp
    · cases hi : env.inspectRes
      · simp
      · cases hc : env.createRes
        · simp
        · cases hl : listFiles env
          · simp [hl]
          · cases hr : env.removeRes <;> simp [hl]

/-- Witness for `container_cleanup_amended`: the file handler removes the
container even when the archive export rejects. -/
theorem container_cleanup_amended_witness :
    Ev.containerRemove ∈
      (fileHandler ⟨.ok (), .error "boom", .ok ()⟩).2 :=
  container_cleanup_amended.1 ⟨.ok (), .error "boom", .ok ()⟩ (by decide)

/-- Claim C8, confirmed: the result fetch serves the cached payload when a
cache entry (a serialized result, hence nonempty) exists; on a cache miss
it serves the result embedded in a `completed` job hash; in every other
case — unknown job included, since `hgetall` then yields the empty hash,
whose `status` is not `completed` — it answers 404. -/
theorem results_handler_spec (c : List (String × String))
    (st : List (String × JobHash)) (jid : String) :
    (∀ s, cacheGet c jid = some s → s ≠ "" →
        resultsHandler c st jid = .ok s) ∧
    (∀ r, cacheGet c jid = none → (hgetall st jid).status = some "completed" →
        (hgetall st jid).result = some r → resultsHandler c st jid = .ok r) ∧
    (cacheGet c jid = none → (hgetall st jid).status ≠ some "completed" →
        resultsHandler c st jid = .notFound) := by
  refine ⟨?_, ?_, ?_⟩
  · intro s hs hne
    simp [resultsHandler, hs, jsStrTruthy, hne]
  · intro r hc hst hr
    simp [resultsHandler, hc, hst, hr, jsStrTruthy, jsObjFalsy]
  · intro hc hst
    have hb : ((hgetall st jid).status == some "completed") = false :=
      beq_eq_false_iff_ne.mpr hst
    simp [resultsHandler, hc, jsStrTruthy, jsObjFalsy, hb]

/-- Witness for `results_handler_spec`: all three cases at concrete
stores — a cache hit, a miss over a completed job, and a miss over an
absent job. -/
theorem results_handler_spec_witness :
    resultsHandler [("j1", "RES")] [] "j1" = .ok "RES" ∧
    resultsHandler []
      [("j2", { status := some "completed", result := some "R2" })] "j2" =
        .ok "R2" ∧
    resultsHandler [] [] "j3" = .notFound :=
  ⟨(results_handler_spec [("j1", "RES")] [] "j1").1 "RES" (by decide)
      (by decide),
   (results_handler_spec []
      [("j2", { status := some "completed", result := some "R2" })] "j2").2.1
      "R2" (by decide) (by decide) (by decide),
   (results_handler_spec [] [] "j3").2.2 (by decide) (by decide)⟩

/-- Unfolding of one loop iteration with remaining fuel. -/
theorem sizeLoopGo_succ (q : ℚ) (i k : ℕ) :
    sizeLoopGo q i (k + 1) =
      if 1024 ≤ q then sizeLoopGo (q / 1024) (i + 1) k else (q, i) := rfl

/-- The loop stops when no larger unit remains. -/
theorem sizeLoopGo_zero (q : ℚ) (i : ℕ) : sizeLoopGo q i 0 = (q, i) := rfl

/-- Characterization of the `formatSize` loop on a byte count: it returns
the input divided by `1024 ^ specUnitIndex n` together with that unit
index. -/
theorem sizeLoop_eq_spec (n : ℕ) :
    sizeLoop (n : ℚ) 0 = ((n : ℚ) / 1024 ^ specUnitIndex n, specUnitIndex n) := by
  have p0 : (0 : ℚ) < 1024 := by norm_num
  show sizeLoopGo (n : ℚ) 0 3 = _
  rcases lt_or_le n 1024 with h0 | h0
  · have hq : ¬ (1024 : ℚ) ≤ (n : ℚ) := by exact_mod_cast not_le.mpr h0
    rw [sizeLoopGo_succ, if_neg hq]
    simp [specUnitIndex, h0]
  · have hq : (1024 : ℚ) ≤ (n : ℚ) := by exact_mod_cast h0
    rw [sizeLoopGo_succ, if_pos hq]
    rcases lt_or_le n (1024 ^ 2) with h1 | h1
    · have h1' : n < 1048576 := by norm_num at h1; exact h1
      have hq1 : ¬ (1024 : ℚ) ≤ (n : ℚ) / 1024 := by
        rw [not_le, div_lt_iff p0]
        norm_num
        exact_mod_cast h1'
      rw [sizeLoopGo_succ, if_neg hq1]
      have hidx : specUnitIndex n = 1 := by
        unfold specUnitIndex
        rw [if_neg (not_lt.mpr h0), if_pos h1]
      rw [hidx]
      norm_num
    · have h1' : (1048576 : ℕ) ≤ n := by norm_num at h1; exact h1
      have hq1 : (1024 : ℚ) ≤ (n : ℚ) / 1024 := by
        rw [le_div_iff p0]
        norm_num
        exact_mod_cast h1'
      rw [sizeLoopGo_succ, if_pos hq1]
      rcases lt_or_le n (1024 ^ 3) with h2 | h2
      · have h2' : n < 1073741824 := by norm_num at h2; exact h2
        have hq2 : ¬ (1024 : ℚ) ≤ (n : ℚ) / 1024 / 1024 := by
          rw [not_le, div_div, div_lt_iff (by norm_num : (0:ℚ) < 1024 * 1024)]
          norm_num
          exact_mod_cast h2'
        rw [sizeLoopGo_succ, if_neg hq2]
        have hidx : specUnitIndex n = 2 := by
          unfold specUnitIndex
          rw [if_neg (not_lt.mpr h0), if_neg (not_lt.mpr h1), if_pos h2]
        rw [hidx]
        rw [div_div]
        norm_num
      · have h2' : (1073741824 : ℕ) ≤ n := by norm_num at h2; exact h2
        have hq2 : (1024 : ℚ) ≤ (n : ℚ) / 1024 / 1024 := by
          rw [div_div, le_div_iff (by norm_num : (0:ℚ) < 1024 * 1024)]
          norm_num
          exact_mod_cast h2'
        rw [sizeLoopGo_succ, if_pos hq2, sizeLoopGo_zero]
        have hidx : specUnitIndex n = 3 := by
          unfold specUnitIndex
          rw [if_neg (not_lt.mpr h0), if_neg (not_lt.mpr h1), if_neg (not_lt.mpr h2)]
        rw [hidx]
        rw [div_div, div_div]
        norm_num

/-- Claim C5, confirmed: `formatSize` agrees with the specification's
description — divide by 1024 while the value is at least 1024 and a larger
unit of `B, KB, MB, GB` remains, then print the quotient to one decimal
place followed by the unit — and on the claim's sentinel values: 1023 stays
in `B`, 1024 gives `"1.0KB"`, 1048576 gives `"1.0MB"`. -/
theorem format_size_correct :
    (∀ n : ℕ, formatSize n = specFormatSize n) ∧
    formatSize 1023 = "1023.0B" ∧ formatSize 1024 = "1.0KB" ∧
    formatSize 1048576 = "1.0MB" := by
  have main : ∀ n : ℕ, formatSize n = specFormatSize n := by
    intro n
    unfold formatSize specFormatSize
    rw [sizeLoop_eq_spec n]
  refine ⟨main, ?_, ?_, ?_⟩
  · rw [main 1023]
    unfold specFormatSize
    have hidx : specUnitIndex 1023 = 0 := by norm_num [specUnitIndex]
    rw [hidx]
    have hv : ((1023 : ℕ) : ℚ) / 1024 ^ 0 = 1023 := by norm_num
    rw [hv]
    unfold toFixed1
    have hf : ⌊(1023 : ℚ) * 10 + 1 / 2⌋ = 10230 := by
      norm_num [Int.floor_eq_iff]
    rw [hf]
    rfl
  · rw [main 1024]
    unfold specFormatSize
    have hidx : specUnitIndex 1024 = 1 := by norm_num [specUnitIndex]
    rw [hidx]
    have hv : ((1024 : ℕ) : ℚ) / 1024 ^ 1 = 1 := by norm_num
    rw [hv]
    unfold toFixed1
    have hf : ⌊(1 : ℚ) * 10 + 1 / 2⌋ = 10 := by
      norm_num [Int.floor_eq_iff]
    rw [hf]
    rfl
  · rw [main 1048576]
    unfold specFormatSize
    have hidx : specUnitIndex 1048576 = 2 := by norm_num [specUnitIndex]
    rw [hidx]
    have hv : ((1048576 : ℕ) : ℚ) / 1024 ^ 2 = 1 := by norm_num
    rw [hv]
    unfold toFixed1
    have hf : ⌊(1 : ℚ) * 10 + 1 / 2⌋ = 10 := by
      norm_num [Int.floor_eq_iff]
    rw [hf]
    rfl

end DockerInspect
